import Mathlib

/-!
Verification development for the web3verify repository.

The definitions below are a shallow embedding of the JavaScript source:

* src/src/blockchain.js — `verifySignature`, `checkERC20BalanceWithStaking`,
  `verifyTokenRequirements` (on-chain reads are modelled as oracle
  parameters `String → Except EvalErr BalanceResult`, since the real reads
  are network calls).
* src/src/handlers.js — `getVerificationMessage`, the binding part of
  `handleVerify`, the per-rule wallet loop of `handleReverify`, and
  `handleRemoveWallet`.
* src/src/database.js (SQLite store) — `addWallet`, `removeWallet`,
  `setPrimaryWallet`, `logVerification` (the wallets of a single identity
  are a list in insertion order; the transition log is an append-only list).
* src/verifier.js (VerificationService) — `checkAndUpdateRole` and the
  single-flight guard of `runVerification`.

JavaScript `BigInt` chain balances are modelled as `Nat` (uint256 values are
non-negative; overflow never occurs for the quantities involved).  External
effects (Discord role add/remove) are modelled by boolean success flags;
thrown JavaScript exceptions are modelled with `Except` or by the error
constructors of result types.
-/

/-- JavaScript `toLowerCase` restricted to the ASCII strings (hex addresses)
the program applies it to, character by character. -/
def lowerStr (s : String) : String := ⟨s.data.map Char.toLower⟩

/-- One hexadecimal digit, as matched by `[a-fA-F0-9]`. -/
def isHexDigit (c : Char) : Bool :=
  ('0' ≤ c && c ≤ '9') || ('a' ≤ c && c ≤ 'f') || ('A' ≤ c && c ≤ 'F')

/-- The wallet-address format test `/^0x[a-fA-F0-9]{40}$/` used by
`handleVerify`, `handleRemoveWallet` and the web API: the characters are
the literal 0, the literal x, then exactly forty hexadecimal digits. -/
def isHexAddress (s : String) : Bool :=
  match s.data with
  | '0' :: 'x' :: rest => rest.length == 40 && rest.all isHexDigit
  | _ => false

/-- Failure of an on-chain read or of address recovery (a thrown JavaScript
error inside ethers.js). -/
inductive EvalErr where
  | network
  | badAddress
  | badContract
deriving DecidableEq

/-- The result object returned by the balance checkers of blockchain.js:
`{ hasBalance, balance, required }` (the latter two are display strings). -/
structure BalanceResult where
  hasBalance : Bool
  balance : String
  required : String
deriving DecidableEq

/-- One row of the `wallets` table for a fixed identity: the address as
stored (lower-cased on insert) and the primary flag. -/
structure Wallet where
  wallet_address : String
  is_primary : Bool
deriving DecidableEq

/-- database.js `setPrimaryWallet`: clear `is_primary` on every wallet of the
identity, then set it on the row whose stored address equals the lower-cased
argument. -/
def setPrimaryWallet (s : List Wallet) (addr : String) : List Wallet :=
  s.map fun w => ⟨w.wallet_address, w.wallet_address == lowerStr addr⟩

/-- database.js `addWallet`: `INSERT OR IGNORE` of the lower-cased address
(unique per identity), then, if the identity now has exactly one wallet,
`setPrimaryWallet` on it.  All callers in the repository pass the default
`isPrimary = false`; the parameter is kept explicit. -/
def addWallet (s : List Wallet) (addr : String) (isPrimary : Bool) : List Wallet :=
  let a := lowerStr addr
  let s' := if s.any (fun w => w.wallet_address == a) then s else s ++ [⟨a, isPrimary⟩]
  if s'.length == 1 then setPrimaryWallet s' addr else s'

/-- database.js `removeWallet`: delete the rows whose stored address equals
the lower-cased argument. -/
def removeWallet (s : List Wallet) (addr : String) : List Wallet :=
  s.filter fun w => w.wallet_address != lowerStr addr

/-- Outcome of the `/removewallet` handler. -/
inductive RemoveResult where
  | invalidFormat
  | notLinked
  | lastWallet
  | removed (s' : List Wallet)
deriving DecidableEq

/-- handlers.js `handleRemoveWallet` (lines 395-427): reject a malformed
address, reject an address not bound to the caller (compared
case-insensitively), reject removal of the last remaining wallet, otherwise
delete the wallet. -/
def handleRemoveWallet (s : List Wallet) (walletAddress : String) : RemoveResult :=
  if !isHexAddress walletAddress then .invalidFormat
  else if !(s.any fun w => lowerStr w.wallet_address == lowerStr walletAddress) then .notLinked
  else if s.length == 1 then .lastWallet
  else .removed (removeWallet s walletAddress)

/-- Number of wallets of the identity carrying the primary flag. -/
def primaryCount (s : List Wallet) : Nat :=
  (s.filter fun w => w.is_primary).length

/-- handlers.js `getVerificationMessage`: the message the user is asked to
sign.  `now` is the value of `Date.now()` at the moment of the call. -/
def getVerificationMessage (discordId username : String) (now : Nat) : String :=
  "I am verifying my wallet for Discord user " ++ username ++ " (" ++ discordId ++
    ").\n\nTimestamp: " ++ toString now

/-- blockchain.js `verifySignature`: recover the signer from the
message/signature pair (`recover` stands for `ethers.verifyMessage`, which
throws on a malformed signature, hence `Except`) and compare lower-cased
addresses; any thrown error is caught and turned into `false`. -/
def verifySignature (recover : String → String → Except EvalErr String)
    (message signature expectedAddress : String) : Bool :=
  match recover message signature with
  | .error _ => false
  | .ok recoveredAddress => lowerStr recoveredAddress == lowerStr expectedAddress

/-- The binding part of handlers.js `handleVerify` (lines 36-59): reject a
malformed wallet address, reject a failed signature verification, otherwise
add the wallet binding.  Returns the new wallet list and whether a binding
was created. -/
def handleVerifyBind (recover : String → String → Except EvalErr String)
    (message walletAddress signature : String) (s : List Wallet) :
    List Wallet × Bool :=
  if !isHexAddress walletAddress then (s, false)
  else if !verifySignature recover message signature walletAddress then (s, false)
  else (addWallet s walletAddress false, true)

/-- blockchain.js `checkERC20BalanceWithStaking` (lines 122-152), hasBalance
computation: `totalBalance = walletBalance + stakedBalance` as exact BigInt
addition, compared against `parseUnits(minBalance, decimals)`
(`minBalance * 10 ^ decimals` for a whole-number threshold).  The formatted
display strings of the source are elided. -/
def checkERC20BalanceWithStaking (walletBalance stakedBalance decimals minBalance : Nat) :
    Bool :=
  let totalBalance := walletBalance + stakedBalance
  let minBalanceFormatted := minBalance * 10 ^ decimals
  decide (minBalanceFormatted ≤ totalBalance)

/-- One row of the `verification_history` audit table, as written by
database.js `logVerification` (the `Date.now()` timestamp column is elided;
no claim concerns it). -/
structure TransitionRecord where
  discord_id : String
  guild_id : String
  role_id : String
  action : String
  reason : String
deriving DecidableEq

/-- verifier.js `VerificationService.checkAndUpdateRole` (lines 124-175).
Inputs: the result of `verifyTokenRequirements` (which may throw, hence
`Except`), whether the configured role still exists in the guild, whether
the member currently has it, and the success of the external
`member.roles.add` / `member.roles.remove` calls.  Output: the audit log
after the call and `some (added, removed)` on normal return, or `none` when
an exception propagates to the caller (a thrown balance check, re-thrown by
the catch, or a failed external role call, which aborts before
`db.logVerification` runs). -/
def checkAndUpdateRole (balanceCheck : Except EvalErr BalanceResult)
    (roleExists hasRole addOk removeOk : Bool)
    (discordId guildId roleId : String) (log : List TransitionRecord) :
    List TransitionRecord × Option (Bool × Bool) :=
  match balanceCheck with
  | .error _ => (log, none)
  | .ok bc =>
    if !roleExists then (log, some (false, false))
    else if bc.hasBalance && !hasRole then
      if addOk then
        (log ++ [⟨discordId, guildId, roleId, "added", "Periodic verification"⟩],
         some (true, false))
      else (log, none)
    else if !bc.hasBalance && hasRole then
      if removeOk then
        (log ++ [⟨discordId, guildId, roleId, "removed",
            "Insufficient balance (has: " ++ bc.balance ++ ", needs: " ++ bc.required ++ ")"⟩],
         some (false, true))
      else (log, none)
    else (log, some (false, false))

/-- The per-rule body of handlers.js `handleVerify` (lines 75-100): if the
balance check succeeds and reports a sufficient balance and the role exists,
add the role, record it in `rolesAdded` and append an audit record with
reason "Initial verification"; an insufficient balance or a thrown error
lands in `rolesFailed`.  The member's current roles are never consulted.
Output: the audit log, whether a grant was recorded, whether the rule landed
in `rolesFailed`. -/
def handleVerifyRoleCheck (result : Except EvalErr BalanceResult)
    (roleExists addOk : Bool) (discordId guildId roleId : String)
    (log : List TransitionRecord) : List TransitionRecord × Bool × Bool :=
  match result with
  | .error _ => (log, false, true)
  | .ok r =>
    if r.hasBalance then
      if roleExists then
        if addOk then
          (log ++ [⟨discordId, guildId, roleId, "added", "Initial verification"⟩],
           true, false)
        else (log, false, true)
      else (log, false, false)
    else (log, false, true)

/-- The wallet loop of handlers.js `handleReverify` (lines 322-333):
evaluate each bound wallet in order; a result with `hasBalance` stops the
loop with `meetsRequirements = true`; an insufficient balance or a thrown
error (caught and logged) moves on to the next wallet.  Returns
`meetsRequirements` and the list of wallets actually evaluated. -/
def reverifyCheckWallets (eval : String → Except EvalErr BalanceResult) :
    List String → Bool × List String
  | [] => (false, [])
  | w :: ws =>
    match eval w with
    | .ok r =>
      if r.hasBalance then (true, [w])
      else
        let rest := reverifyCheckWallets eval ws
        (rest.1, w :: rest.2)
    | .error _ =>
      let rest := reverifyCheckWallets eval ws
      (rest.1, w :: rest.2)

/-- The decision step of handlers.js `handleReverify` (lines 335-345): grant
when the requirement is met and the role is absent, revoke when it is not
met and the role is held; the audit record is appended after the external
role call succeeds (a throw is caught by the per-rule catch before
`db.logVerification` runs).  `some true` = role added, `some false` = role
removed, `none` = nothing applied. -/
def reverifyRuleStep (roleExists meets hasRole addOk removeOk : Bool)
    (discordId guildId roleId : String) (log : List TransitionRecord) :
    List TransitionRecord × Option Bool :=
  if !roleExists then (log, none)
  else if meets && !hasRole then
    if addOk then
      (log ++ [⟨discordId, guildId, roleId, "added", "Admin re-verification"⟩], some true)
    else (log, none)
  else if !meets && hasRole then
    if removeOk then
      (log ++ [⟨discordId, guildId, roleId, "removed",
          "Insufficient balance on all wallets"⟩], some false)
    else (log, none)
  else (log, none)

/-- One row returned by database.js `getAllUsers`
(`SELECT DISTINCT discord_id, username, created_at, last_checked FROM users`):
exactly these four columns, nothing else. -/
structure UserRecord where
  discord_id : String
  username : String
  created_at : Nat
  last_checked : Option Nat
deriving DecidableEq

/-- The JavaScript property access `user.wallet_address` performed by
verifier.js `checkAndUpdateRole` (line 130) on a row from `getAllUsers`:
the `users` table has no `wallet_address` column (wallets live in the
separate `wallets` table), so the access yields `undefined`. -/
def UserRecord.walletAddressField (_ : UserRecord) : Option String := none

/-- blockchain.js `verifyTokenRequirements` applied to a possibly-undefined
wallet address: ethers.js throws when asked for the balance of `undefined`,
so the check errors without reaching the oracle. -/
def verifyTokenRequirementsAt (oracle : String → Except EvalErr BalanceResult) :
    Option String → Except EvalErr BalanceResult
  | none => .error .badAddress
  | some a => oracle a

/-- State of the single-flight guard of verifier.js `runVerification`:
the `isRunning` flag and the number of verification runs currently inside
the try block. -/
structure SFState where
  isRunning : Bool
  activeRuns : Nat
deriving DecidableEq

/-- Events at the guard: a trigger of `runVerification` (cron tick, startup
timer, or on-demand), and the completion of a run's body — the `finally`
block, which executes whether the body returned or threw. -/
inductive SFEv where
  | trigger
  | finish
deriving DecidableEq

/-- verifier.js `runVerification` (lines 39-80) at the guard, one event at a
time.  A trigger while `isRunning` returns immediately (skip, logged) doing
no verification work and queuing nothing; otherwise it sets `isRunning` and
the run body starts.  `finish` is the `finally` block: it clears
`isRunning` on success and on error alike.  The check-and-set prologue is
synchronous JavaScript, hence atomic under the event loop.  The returned
Bool reports whether the trigger started a run. -/
def sfStep : SFState → SFEv → SFState × Bool
  | st, .trigger =>
    if st.isRunning then (st, false)
    else (⟨true, st.activeRuns + 1⟩, true)
  | st, .finish => (⟨false, st.activeRuns - 1⟩, false)

/-- The guard state after a sequence of events, starting from the
constructor state `isRunning = false` with no active run. -/
def sfRun (evs : List SFEv) : SFState :=
  evs.foldl (fun st e => (sfStep st e).1) ⟨false, 0⟩

/-- Invariant of the guard: at most one run is ever active, and `isRunning`
tracks exactly whether one is. -/
def SFInv (st : SFState) : Prop :=
  st.activeRuns ≤ 1 ∧ (st.isRunning = true ↔ st.activeRuns = 1)

/-- Concrete lower-case test address A. -/
def addrA : String := "0xaaaaaaaaaaaaaaaaaaaaaaaaaaaaaaaaaaaaaaaa"

/-- Concrete lower-case test address B. -/
def addrB : String := "0xbbbbbbbbbbbbbbbbbbbbbbbbbbbbbbbbbbbbbbbb"

/-- Concrete lower-case test address C. -/
def addrC : String := "0xcccccccccccccccccccccccccccccccccccccccc"

/-- Wallet state of an identity that bound A first (primary) and B second. -/
def wsAB : List Wallet := [⟨addrA, true⟩, ⟨addrB, false⟩]

/-- Unfolding lemma for `verifySignature` when recovery returns an address. -/
theorem verifySignature_ok (recover : String → String → Except EvalErr String)
    (m s a A : String) (h : recover m s = Except.ok A) :
    verifySignature recover m s a = (lowerStr A == lowerStr a) := by
  unfold verifySignature
  rw [h]

/-- Unfolding lemma for `verifySignature` when recovery throws. -/
theorem verifySignature_error (recover : String → String → Except EvalErr String)
    (m s a : String) (e : EvalErr) (h : recover m s = Except.error e) :
    verifySignature recover m s a = false := by
  unfold verifySignature
  rw [h]

/-- C1: the verification message is NOT reproducible across two calls for the
same identity, because `getVerificationMessage` embeds `Date.now()`: the
message issued by /getmessage at time 1700000000000 differs from the message
`handleVerify` regenerates at time 1700000000001, and a signature bound to
the issued message (the recovery oracle models that ECDSA recovery over any
other message yields a different address) fails verification against the
regenerated one. -/
theorem verification_message_not_reproducible :
    getVerificationMessage "123456789012345678" "alice" 1700000000000 ≠
      getVerificationMessage "123456789012345678" "alice" 1700000000001 ∧
    verifySignature
      (fun m s =>
        if m = getVerificationMessage "123456789012345678" "alice" 1700000000000 ∧ s = "0xsig"
        then Except.ok addrA else Except.ok addrB)
      (getVerificationMessage "123456789012345678" "alice" 1700000000001)
      "0xsig" addrA = false := by
  have hne : getVerificationMessage "123456789012345678" "alice" 1700000000000 ≠
      getVerificationMessage "123456789012345678" "alice" 1700000000001 := by decide
  refine ⟨hne, ?_⟩
  have hok : ((fun m s =>
        if m = getVerificationMessage "123456789012345678" "alice" 1700000000000 ∧
            s = "0xsig"
        then Except.ok addrA else Except.ok addrB) :
          String → String → Except EvalErr String)
      (getVerificationMessage "123456789012345678" "alice" 1700000000001) "0xsig"
      = Except.ok addrB := by
    show (if getVerificationMessage "123456789012345678" "alice" 1700000000001 =
          getVerificationMessage "123456789012345678" "alice" 1700000000000 ∧
          ("0xsig" : String) = "0xsig"
        then (Except.ok addrA : Except EvalErr String) else Except.ok addrB)
        = Except.ok addrB
    rw [if_neg]
    rintro ⟨h1, -⟩
    exact hne h1.symm
  rw [verifySignature_ok _ _ _ _ _ hok]
  decide

/-- C2: in `handleReverify`, when predicate evaluation throws for the only
bound wallet of an identity that currently holds the role, the rule is not
skipped: `meetsRequirements` stays false, the role is removed and an audit
record with reason "Insufficient balance on all wallets" is appended —
contradicting the claim that an all-error rule is a no-op that never
revokes. -/
theorem reverify_error_revokes :
    (reverifyCheckWallets (fun _ => Except.error EvalErr.network) [addrA]).1 = false ∧
    reverifyRuleStep true
        ((reverifyCheckWallets (fun _ => Except.error EvalErr.network) [addrA]).1)
        true true true "u1" "g1" "r1" []
      = ([⟨"u1", "g1", "r1", "removed", "Insufficient balance on all wallets"⟩],
         some false) := by
  constructor <;> rfl

/-- C3: with wallets A (insufficient), B (sufficient) and C bound, the
admin-reverify wallet loop does satisfy the rule and short-circuits after B
(C is not evaluated) — but the periodic reconciliation
(`VerificationService.checkAndUpdateRole`) reads `user.wallet_address`, a
field absent from the `getAllUsers` row, so its balance check throws and it
emits no decision and writes no record, refuting the claim for the periodic
reconciliation path. -/
theorem periodic_ignores_bound_wallets :
    (reverifyCheckWallets (fun a => Except.ok ⟨a == addrB, "0", "100"⟩)
        [addrA, addrB, addrC]).1 = true ∧
    (reverifyCheckWallets (fun a => Except.ok ⟨a == addrB, "0", "100"⟩)
        [addrA, addrB, addrC]).2 = [addrA, addrB] ∧
    checkAndUpdateRole
        (verifyTokenRequirementsAt (fun a => Except.ok ⟨a == addrB, "0", "100"⟩)
          (UserRecord.walletAddressField ⟨"u1", "alice", 0, none⟩))
        true false true true "u1" "g1" "r1" []
      = ([], none) := by
  refine ⟨by decide, by decide, rfl⟩

/-- C4: for every token decimal count, a spot balance of 40 tokens plus a
staked balance of 60 tokens, summed exactly in integer precision by
`checkERC20BalanceWithStaking`, satisfies a threshold of 100 and does not
satisfy a threshold of 101. -/
theorem staking_aggregation_exact (d : Nat) :
    checkERC20BalanceWithStaking (40 * 10 ^ d) (60 * 10 ^ d) d 100 = true ∧
    checkERC20BalanceWithStaking (40 * 10 ^ d) (60 * 10 ^ d) d 101 = false := by
  have hk : 1 ≤ 10 ^ d := Nat.one_le_pow _ _ (by norm_num)
  constructor
  · simp only [checkERC20BalanceWithStaking, decide_eq_true_eq]
    omega
  · simp only [checkERC20BalanceWithStaking, decide_eq_false_iff_not]
    omega

/-- C5 counterexample: the per-rule body of `handleVerify` never consults
the member's current grants, so running /verify twice with unchanged
balances and an unchanged grant state records a grant and appends an audit
record on the second run as well (two records in total), refuting the claim
that a second run emits no decision and appends no audit record. -/
theorem handleVerify_regrants_counterexample :
    (handleVerifyRoleCheck (Except.ok ⟨true, "150.0", "100"⟩) true true "u1" "g1" "r1"
        (handleVerifyRoleCheck (Except.ok ⟨true, "150.0", "100"⟩) true true "u1" "g1" "r1"
          []).1).2.1 = true ∧
    (handleVerifyRoleCheck (Except.ok ⟨true, "150.0", "100"⟩) true true "u1" "g1" "r1"
        (handleVerifyRoleCheck (Except.ok ⟨true, "150.0", "100"⟩) true true "u1" "g1" "r1"
          []).1).1.length = 2 := by
  constructor <;> rfl

/-- C5 amended: reconciliation through the periodic service
(`checkAndUpdateRole`) is idempotent per rule per run: a first run on an
identity whose wallet satisfies the rule but does not hold the role emits
exactly one grant decision and appends exactly one audit record, and a
second run with unchanged balance, the role now held, emits no decision and
appends no record. -/
theorem reconciliation_idempotent_amended (d g r b q : String)
    (log : List TransitionRecord) :
    checkAndUpdateRole (Except.ok ⟨true, b, q⟩) true false true true d g r log
      = (log ++ [⟨d, g, r, "added", "Periodic verification"⟩], some (true, false)) ∧
    checkAndUpdateRole (Except.ok ⟨true, b, q⟩) true true true true d g r
        (log ++ [⟨d, g, r, "added", "Periodic verification"⟩])
      = (log ++ [⟨d, g, r, "added", "Periodic verification"⟩], some (false, false)) := by
  constructor <;> rfl

/-- C7: in the binding part of `handleVerify`, whenever the address recovered
from the message+signature pair does not case-insensitively equal the
claimed address — including when recovery throws, so that no address is
recovered at all — the submission is rejected and the wallet list is left
unchanged (no WalletBinding is created); conversely a binding is created
only when recovery succeeds and the recovered address case-insensitively
equals the claimed one. -/
theorem binding_rejection_sound (recover : String → String → Except EvalErr String)
    (m walletAddress sig : String) (s : List Wallet) :
    ((∀ A, recover m sig = Except.ok A → lowerStr A ≠ lowerStr walletAddress) →
      handleVerifyBind recover m walletAddress sig s = (s, false)) ∧
    ((handleVerifyBind recover m walletAddress sig s).2 = true →
      ∃ A, recover m sig = Except.ok A ∧ lowerStr A = lowerStr walletAddress) := by
  constructor
  · intro h
    unfold handleVerifyBind
    cases hr : recover m sig with
    | error e => simp [verifySignature_error recover m sig walletAddress e hr]
    | ok A =>
      have hne := h A hr
      have : verifySignature recover m sig walletAddress = false := by
        rw [verifySignature_ok recover m sig walletAddress A hr]
        simpa using hne
      simp [this]
  · intro h
    unfold handleVerifyBind at h
    cases hr : recover m sig with
    | error e =>
      rw [verifySignature_error recover m sig walletAddress e hr] at h
      simp at h
    | ok A =>
      rw [verifySignature_ok recover m sig walletAddress A hr] at h
      by_cases hx : isHexAddress walletAddress
      · by_cases hb : lowerStr A = lowerStr walletAddress
        · exact ⟨A, rfl, hb⟩
        · simp [hx, hb] at h
      · simp [hx] at h

/-- Witness for C7: a signature recovering to address B, submitted with
claimed address A, is rejected and creates no binding. -/
theorem binding_rejection_sound_witness :
    handleVerifyBind (fun _ _ => Except.ok addrB) "msg" addrA "sig" [] = ([], false) :=
  (binding_rejection_sound (fun _ _ => Except.ok addrB) "msg" addrA "sig" []).1
    (by
      intro A hA
      injection hA with h
      subst h
      decide)

/-- C10: `verifySignature` is total: for every recovery behaviour, message,
signature and claimed address it returns a boolean — `false` whenever
recovery throws (no exception escapes the catch) — and it returns `true`
exactly when recovery yields an address that case-insensitively equals the
claimed one. -/
theorem verify_signature_total (recover : String → String → Except EvalErr String)
    (m sig addr : String) :
    (∀ e, recover m sig = Except.error e → verifySignature recover m sig addr = false) ∧
    (verifySignature recover m sig addr = true ↔
      ∃ A, recover m sig = Except.ok A ∧ lowerStr A = lowerStr addr) := by
  constructor
  · intro e he
    exact verifySignature_error recover m sig addr e he
  · cases hr : recover m sig with
    | error e =>
      rw [verifySignature_error recover m sig addr e hr]
      simp
    | ok A =>
      rw [verifySignature_ok recover m sig addr A hr]
      simp [beq_iff_eq]

/-- Witness for C10: a recovery that always throws yields `false`. -/
theorem verify_signature_total_witness :
    verifySignature (fun _ _ => Except.error EvalErr.network) "m" "s" "0xAB" = false :=
  (verify_signature_total (fun _ _ => Except.error EvalErr.network) "m" "s" "0xAB").1
    EvalErr.network rfl

/-- C8: in both engine paths that apply access changes — the periodic
`checkAndUpdateRole` and the per-rule grant body of `handleVerify`
(`handleVerifyRoleCheck`) — an applied grant or revoke appends exactly one
audit record (with the matching action), and only when the external role
call succeeded; a grant and a revoke are never both applied; when no
action is applied — including every path on which an external call failed
or was never made — the audit log is left exactly as it was, so the log
never contains a record for an action that did not take effect. -/
theorem audit_after_success (bc : Except EvalErr BalanceResult)
    (roleExists hasRole addOk removeOk : Bool) (d g r : String)
    (log : List TransitionRecord) :
    (checkAndUpdateRole bc roleExists hasRole addOk removeOk d g r log).2
        ≠ some (true, true) ∧
    ((checkAndUpdateRole bc roleExists hasRole addOk removeOk d g r log).2
        = some (true, false) →
      addOk = true ∧ ∃ rec, rec.action = "added" ∧
        (checkAndUpdateRole bc roleExists hasRole addOk removeOk d g r log).1
          = log ++ [rec]) ∧
    ((checkAndUpdateRole bc roleExists hasRole addOk removeOk d g r log).2
        = some (false, true) →
      removeOk = true ∧ ∃ rec, rec.action = "removed" ∧
        (checkAndUpdateRole bc roleExists hasRole addOk removeOk d g r log).1
          = log ++ [rec]) ∧
    (((checkAndUpdateRole bc roleExists hasRole addOk removeOk d g r log).2
          = some (false, false) ∨
      (checkAndUpdateRole bc roleExists hasRole addOk removeOk d g r log).2 = none) →
      (checkAndUpdateRole bc roleExists hasRole addOk removeOk d g r log).1 = log) ∧
    ((handleVerifyRoleCheck bc roleExists addOk d g r log).2.1 = true →
      addOk = true ∧ ∃ rec, rec.action = "added" ∧
        (handleVerifyRoleCheck bc roleExists addOk d g r log).1 = log ++ [rec]) ∧
    ((handleVerifyRoleCheck bc roleExists addOk d g r log).2.1 = false →
      (handleVerifyRoleCheck bc roleExists addOk d g r log).1 = log) := by
  rcases bc with e | bc
  · simp [checkAndUpdateRole, handleVerifyRoleCheck]
  · rcases bc with ⟨hb, bal, req⟩
    cases hb <;> cases roleExists <;> cases hasRole <;> cases addOk <;> cases removeOk <;>
      simp [checkAndUpdateRole, handleVerifyRoleCheck]

/-- Witness for C8: a sufficient balance, an absent role and a successful
external add produce exactly the one "added" record. -/
theorem audit_after_success_witness :
    true = true ∧ ∃ rec : TransitionRecord, rec.action = "added" ∧
      (checkAndUpdateRole (Except.ok ⟨true, "150", "100"⟩) true false true true
        "u1" "g1" "r1" []).1 = [] ++ [rec] :=
  (audit_after_success (Except.ok ⟨true, "150", "100"⟩) true false true true
    "u1" "g1" "r1" []).2.1 rfl

/-- Preservation of the single-flight invariant by one event at the guard. -/
theorem sfStep_inv (st : SFState) (e : SFEv) (h : SFInv st) :
    SFInv (sfStep st e).1 := by
  obtain ⟨h1, h2⟩ := h
  cases e with
  | trigger =>
    cases hr : st.isRunning with
    | true =>
      simpa [sfStep, hr] using ⟨h1, h2⟩
    | false =>
      have hz : st.activeRuns = 0 := by
        rcases Nat.le_one_iff_eq_zero_or_eq_one.mp h1 with h | h
        · exact h
        · rw [h2.mpr h] at hr
          cases hr
      simp [sfStep, hr, SFInv, hz]
  | finish =>
    simp only [sfStep, SFInv]
    constructor
    · omega
    · constructor
      · intro hh
        cases hh
      · omega

/-- The single-flight invariant holds along every event sequence. -/
theorem sfRun_inv (evs : List SFEv) : SFInv (sfRun evs) := by
  have aux : ∀ (l : List SFEv) (st : SFState), SFInv st →
      SFInv (l.foldl (fun st e => (sfStep st e).1) st) := by
    intro l
    induction l with
    | nil => intro st h; exact h
    | cons e l ih =>
      intro st h
      exact ih _ (sfStep_inv st e h)
  exact aux evs ⟨false, 0⟩ (by constructor <;> simp)

/-- C9: the full-population run is guarded by a single-flight lock: a
trigger arriving while `isRunning` is set returns immediately without
starting any verification work and without changing the guard state (so
nothing is queued); along every sequence of triggers and completions at
most one run is ever active (runs never execute concurrently); and the
completion event — the finally block, reached on success and on error
alike — always clears the guard. -/
theorem single_flight_guard :
    (∀ st : SFState, st.isRunning = true → sfStep st SFEv.trigger = (st, false)) ∧
    (∀ st : SFState, ((sfStep st SFEv.finish).1).isRunning = false) ∧
    (∀ evs : List SFEv, (sfRun evs).activeRuns ≤ 1) := by
  refine ⟨?_, ?_, ?_⟩
  · intro st h
    simp [sfStep, h]
  · intro st
    simp [sfStep]
  · intro evs
    exact (sfRun_inv evs).1

/-- Witness for C9: a trigger arriving while a run is active is skipped. -/
theorem single_flight_guard_witness :
    sfStep ⟨true, 1⟩ SFEv.trigger = (⟨true, 1⟩, false) :=
  single_flight_guard.1 ⟨true, 1⟩ rfl

/-- A successful `/removewallet` deletes exactly the requested address. -/
theorem handleRemoveWallet_removed_eq (s : List Wallet) (addr : String)
    (s' : List Wallet) (h : handleRemoveWallet s addr = RemoveResult.removed s') :
    s' = removeWallet s addr := by
  unfold handleRemoveWallet at h
  split_ifs at h
  all_goals simp only [reduceCtorEq, RemoveResult.removed.injEq] at h
  exact h.symm

/-- The primary flags are a sublist, so their count is at most the length. -/
theorem primaryCount_le_length (s : List Wallet) : primaryCount s ≤ s.length :=
  List.length_filter_le _ s

/-- The primary count distributes over append. -/
theorem primaryCount_append (s t : List Wallet) :
    primaryCount (s ++ t) = primaryCount s + primaryCount t := by
  simp [primaryCount, List.filter_append]

/-- `setPrimaryWallet` is a map, so it never has more primaries than rows. -/
theorem primaryCount_setPrimary_le (s : List Wallet) (addr : String) :
    primaryCount (setPrimaryWallet s addr) ≤ s.length := by
  calc primaryCount (setPrimaryWallet s addr) ≤ (setPrimaryWallet s addr).length :=
        primaryCount_le_length _
    _ = s.length := List.length_map _ _

/-- Deleting only non-primary rows leaves the primary rows untouched. -/
theorem removeWallet_filter_primary (s : List Wallet) (a : String)
    (h : ∀ w ∈ s, w.wallet_address = a → w.is_primary = false) :
    ((s.filter fun w => w.wallet_address != a).filter fun w => w.is_primary)
      = s.filter fun w => w.is_primary := by
  induction s with
  | nil => rfl
  | cons w ws ih =>
    have hws : ∀ x ∈ ws, x.wallet_address = a → x.is_primary = false :=
      fun x hx => h x (List.mem_cons_of_mem _ hx)
    by_cases hwa : w.wallet_address = a
    · have hp : w.is_primary = false := h w (List.mem_cons_self _ _) hwa
      simp [List.filter_cons, hwa, hp, ih hws]
    · cases hp : w.is_primary <;>
        simp [List.filter_cons, hwa, hp, ih hws]

/-- C6 counterexample: from an empty state, bind wallet A (it becomes
primary), bind wallet B; `/removewallet` of the primary wallet A is NOT
rejected — it succeeds and leaves the identity with one wallet and zero
primary wallets, refuting "an identity with at least one wallet has exactly
one primary" after every wallet-binding operation. -/
theorem primary_invariant_counterexample :
    addWallet (addWallet [] addrA false) addrB false = wsAB ∧
    handleRemoveWallet wsAB addrA = RemoveResult.removed [⟨addrB, false⟩] ∧
    primaryCount [⟨addrB, false⟩] = 0 := by
  refine ⟨by decide, by decide, by decide⟩

/-- C6 amended: binding through the repository's call sites (isPrimary
defaulted to false) makes the first wallet primary and preserves "at most
one primary"; unlinking the sole remaining wallet is rejected; and a
successful unlink of a wallet whose address carries no primary flag leaves
the primary rows unchanged.  (After unlinking the primary wallet while
other wallets remain — which is not rejected — the identity is left with
wallets but no primary; no new primary is elected.) -/
theorem primary_invariant_amended :
    (∀ addr, addWallet [] addr false = [⟨lowerStr addr, true⟩]) ∧
    (∀ s addr, primaryCount s ≤ 1 → primaryCount (addWallet s addr false) ≤ 1) ∧
    (∀ (w : Wallet) (addr : String) (s' : List Wallet),
      handleRemoveWallet [w] addr ≠ RemoveResult.removed s') ∧
    (∀ s addr s', handleRemoveWallet s addr = RemoveResult.removed s' →
      (∀ w ∈ s, w.wallet_address = lowerStr addr → w.is_primary = false) →
      (s'.filter fun w => w.is_primary) = s.filter fun w => w.is_primary) := by
  refine ⟨?_, ?_, ?_, ?_⟩
  · intro addr
    simp [addWallet, setPrimaryWallet]
  · intro s addr h
    simp only [addWallet]
    by_cases hd : (s.any fun w => w.wallet_address == lowerStr addr) = true
    · rw [if_pos hd]
      by_cases hl : (s.length == 1) = true
      · rw [if_pos hl]
        have h1 : s.length = 1 := by simpa [beq_iff_eq] using hl
        have h2 := primaryCount_setPrimary_le s addr
        omega
      · rw [if_neg hl]
        exact h
    · rw [if_neg hd]
      by_cases hl : ((s ++ [(⟨lowerStr addr, false⟩ : Wallet)]).length == 1) = true
      · rw [if_pos hl]
        have h1 : (s ++ [(⟨lowerStr addr, false⟩ : Wallet)]).length = 1 := by
          simpa [beq_iff_eq] using hl
        have h2 := primaryCount_setPrimary_le (s ++ [(⟨lowerStr addr, false⟩ : Wallet)]) addr
        omega
      · rw [if_neg hl]
        have h2 := primaryCount_append s [(⟨lowerStr addr, false⟩ : Wallet)]
        have h3 : primaryCount [(⟨lowerStr addr, false⟩ : Wallet)] = 0 := rfl
        omega
  · intro w addr s' h
    unfold handleRemoveWallet at h
    split_ifs at h
    all_goals simp_all
  · intro s addr s' h hprim
    rw [handleRemoveWallet_removed_eq s addr s' h]
    exact removeWallet_filter_primary s (lowerStr addr) hprim

/-- Witness for C6 amended: unlinking the non-primary wallet B from the
two-wallet state leaves the primary row (wallet A) unchanged. -/
theorem primary_invariant_amended_witness :
    (([⟨addrA, true⟩] : List Wallet).filter fun w => w.is_primary)
      = wsAB.filter fun w => w.is_primary :=
  primary_invariant_amended.2.2.2 wsAB addrB [⟨addrA, true⟩] (by decide) (by decide)
